import Mathlib

/-!
Verification of the route-resolution / forwarding-target construction core of a
webhook-relay CLI (the `listen` command).  The Go source is embedded shallowly:

* Go strings are modelled as `List Char` (`Str`); all inputs appearing in the
  claims are ASCII, so one `Char` stands for one byte of the Go string.
* `parseURL` (the URL normalizer), `buildForwardURL` (the forward-URL
  composer), `buildEndpointRoutes` (the endpoint route resolver) and the
  validation prefix of `runListenCmd` are translated directly from the source.
* The source calls Go's `net/url.Parse` and `strconv.Atoi`; those library
  functions are modelled byte-for-byte from the Go standard library
  (`net/url/url.go`, non-`viaRequest` code path), since the behaviour of the
  resolver depends on exactly which endpoint URLs fail to parse.
* `log.Fatalf` (process termination inside `buildForwardURL`) is modelled as
  `Option.none` propagating out of the route builder.
-/

set_option autoImplicit false

abbrev Str := List Char

/-- Converts a Lean string literal to the byte-list model of a Go string. -/
def str (s : String) : Str := s.data

/-- Model of Go `strings.HasPrefix s p`. -/
def startsWith : Str → Str → Bool
  | _, [] => true
  | [], _ :: _ => false
  | c :: cs, p :: ps => c == p && startsWith cs ps

/-- Model of Go `strings.TrimSuffix s suf` (removes at most one copy). -/
def trimSuffix (s suf : Str) : Str :=
  if suf.isSuffixOf s then s.take (s.length - suf.length) else s

/-- ASCII letter test, as in Go's `getScheme` loop. -/
def isAlphaC (c : Char) : Bool := decide ('a' ≤ c ∧ c ≤ 'z') || decide ('A' ≤ c ∧ c ≤ 'Z')

/-- ASCII digit test. -/
def isDigitC (c : Char) : Bool := decide ('0' ≤ c ∧ c ≤ '9')

/-- Numeric value of a decimal digit string. -/
def digitsVal (s : Str) : Nat := s.foldl (fun a c => 10 * a + (c.toNat - 48)) 0

/-- Nonempty all-decimal-digit string. -/
def allDigits (s : Str) : Bool := !s.isEmpty && s.all isDigitC

/-- Model of Go `strconv.Atoi(s)` succeeding: an optional sign followed by at
least one decimal digit, whose value fits in a 64-bit `int` (Go's `Atoi` is
`ParseInt(s, 10, 0)` and reports `ErrRange` on overflow). -/
def atoiOk (s : Str) : Bool :=
  if s.head? = some '-' then allDigits (s.drop 1) && decide (digitsVal (s.drop 1) ≤ 2 ^ 63)
  else if s.head? = some '+' then allDigits (s.drop 1) && decide (digitsVal (s.drop 1) < 2 ^ 63)
  else allDigits s && decide (digitsVal s < 2 ^ 63)

/-- Model of the source's `parseURL` (the URL normalizer): a bare port number
becomes `localhost:<port>`, a bare path becomes `localhost<path>`, and a
missing scheme is filled in with `http://`. -/
def parseURL (url : Str) : Str :=
  let url1 := if atoiOk url then str "localhost:" ++ url else url
  let url2 := if startsWith url1 (str "/") then str "localhost" ++ url1 else url1
  if !startsWith url2 (str "http://") && !startsWith url2 (str "https://") then
    str "http://" ++ url2
  else url2

/-! ## Model of Go `net/url.Parse` (the `viaRequest = false` path)

Translated from Go's `net/url/url.go`: `Parse`, `parse`, `getScheme`,
`parseAuthority`, `parseHost`, `validOptionalPort`, `validUserinfo`,
`unescape` and `shouldEscape`.  Every `some`/`none` below corresponds to a
`nil`/non-`nil` error of the Go original. -/

/-- Go `stringContainsCTLByte`: any byte below 0x20 or equal to 0x7f. -/
def containsCTL (s : Str) : Bool := s.any (fun c => decide (c.toNat < 32) || c.toNat == 127)

/-- Result of Go `getScheme`: an error (colon in position 0), no scheme found
(Go returns the whole input as the remainder), or a scheme plus remainder. -/
inductive SchemeRes where
  | schemeErr : SchemeRes
  | noScheme : SchemeRes
  | found (scheme rest : Str) : SchemeRes
deriving DecidableEq

/-- Worker for `getScheme`; `acc` holds the scheme characters scanned so far,
reversed (so `acc.isEmpty` means we are at index 0, as in the Go loop). -/
def getSchemeCore (acc : Str) : Str → SchemeRes
  | [] => .noScheme
  | c :: rest =>
    if c = ':' then
      if acc.isEmpty then .schemeErr else .found acc.reverse rest
    else if isAlphaC c then getSchemeCore (c :: acc) rest
    else if isDigitC c || c = '+' || c = '-' || c = '.' then
      if acc.isEmpty then .noScheme else getSchemeCore (c :: acc) rest
    else .noScheme

/-- Go `getScheme`. -/
def getScheme (s : Str) : SchemeRes := getSchemeCore [] s

/-- ASCII lowering, as applied by Go to the scheme (scheme characters are
always ASCII, so `strings.ToLower` agrees with the ASCII map there). -/
def asciiLower (s : Str) : Str :=
  s.map (fun c => if 'A' ≤ c ∧ c ≤ 'Z' then Char.ofNat (c.toNat + 32) else c)

/-- Result of Go `strings.Cut`-style splitting at the first occurrence. -/
structure CutRes where
  before : Str
  after : Str
  found : Bool
deriving DecidableEq

/-- Split at the first occurrence of `c` (Go `strings.Cut`). -/
def cutAtFirst (c : Char) : Str → CutRes
  | [] => ⟨[], [], false⟩
  | x :: xs =>
    if x = c then ⟨[], xs, true⟩
    else ⟨x :: (cutAtFirst c xs).before, (cutAtFirst c xs).after, (cutAtFirst c xs).found⟩

/-- Escaping modes of Go `net/url.unescape` that this program can reach. -/
inductive EscMode where
  | pathMode : EscMode
  | hostMode : EscMode
  | zoneMode : EscMode
  | fragMode : EscMode
  | userMode : EscMode
deriving DecidableEq

/-- Hex digit test (Go `ishex`). -/
def isHexC (c : Char) : Bool :=
  isDigitC c || decide ('a' ≤ c ∧ c ≤ 'f') || decide ('A' ≤ c ∧ c ≤ 'F')

/-- Hex digit value (Go `unhex`). -/
def hexVal (c : Char) : Nat :=
  if isDigitC c then c.toNat - 48
  else if decide ('a' ≤ c ∧ c ≤ 'f') then c.toNat - 87
  else if decide ('A' ≤ c ∧ c ≤ 'F') then c.toNat - 55
  else 0

/-- Go `shouldEscape(c, encodeHost)` for ASCII `c`: everything except
alphanumerics, `-._~` and the host-mode sub-delimiters must be escaped. -/
def shouldEscapeHost (c : Char) : Bool :=
  !(isAlphaC c || isDigitC c ||
    (c = '-' || c = '_' || c = '.' || c = '~' : Bool) ||
    (c = '!' || c = '$' || c = '&' || c = Char.ofNat 39 || c = '(' || c = ')' : Bool) ||
    (c = '*' || c = '+' || c = ',' || c = ';' || c = '=' || c = ':' : Bool) ||
    (c = '[' || c = ']' || c = '<' || c = '>' || c = Char.ofNat 34 : Bool))

/-- Go `shouldEscape(v, encodeHost)` on a raw byte value (non-ASCII bytes must
always be escaped). -/
def shouldEscapeHostByte (v : Nat) : Bool :=
  if v ≥ 128 then true else shouldEscapeHost (Char.ofNat v)

/-- Go `net/url.unescape`: checks percent-escapes (and, in host/zone modes,
raw characters) and decodes.  `+` is left alone in every mode this program
reaches (no `encodeQueryComponent` call site). -/
def unescapeGo (mode : EscMode) : Str → Option Str
  | [] => some []
  | c :: rest =>
    if c = '%' then
      match rest with
      | h1 :: h2 :: rest2 =>
        if !(isHexC h1 && isHexC h2) then none
        else
          let v := hexVal h1 * 16 + hexVal h2
          if mode = .hostMode ∧ hexVal h1 < 8 ∧ v ≠ 37 then none
          else if mode = .zoneMode ∧ v ≠ 37 ∧ v ≠ 32 ∧ shouldEscapeHostByte v then none
          else (unescapeGo mode rest2).map (fun t => Char.ofNat v :: t)
      | _ => none
    else
      if (mode = .hostMode ∨ mode = .zoneMode) ∧ c.toNat < 128 ∧ shouldEscapeHost c then none
      else (unescapeGo mode rest).map (fun t => c :: t)

/-- Go `validOptionalPort`: empty, or a colon followed by decimal digits. -/
def validOptionalPort : Str → Bool
  | [] => true
  | p :: rest => p == ':' && rest.all isDigitC

/-- Index of the last occurrence of `c` in `s` (Go `strings.LastIndex`). -/
def lastIdxOfAux (c : Char) : Str → Nat → Option Nat
  | [], _ => none
  | x :: xs, i =>
    match lastIdxOfAux c xs (i + 1) with
    | some j => some j
    | none => if x = c then some i else none

/-- Index of the last occurrence of `c` in `s`. -/
def lastIdxOf (c : Char) (s : Str) : Option Nat := lastIdxOfAux c s 0

/-- Index of the first occurrence of the literal `%25` (Go
`strings.Index(host, "%25")`). -/
def idxOfPct25 : Str → Option Nat
  | [] => none
  | '%' :: '2' :: '5' :: _ => some 0
  | _ :: rest => (idxOfPct25 rest).map (· + 1)

/-- Go `parseHost`: validates an optional port (and bracketed IPv6 zone
syntax) and unescapes in host mode. -/
def parseHost (host : Str) : Option Str :=
  if startsWith host (str "[") then
    match lastIdxOf ']' host with
    | none => none
    | some i =>
      if !validOptionalPort (host.drop (i + 1)) then none
      else
        match idxOfPct25 (host.take i) with
        | some z =>
          match unescapeGo .hostMode (host.take z),
                unescapeGo .zoneMode ((host.take i).drop z),
                unescapeGo .hostMode (host.drop i) with
          | some h1, some h2, some h3 => some (h1 ++ h2 ++ h3)
          | _, _, _ => none
        | none => unescapeGo .hostMode host
  else
    match lastIdxOf ':' host with
    | some i =>
      if !validOptionalPort (host.drop i) then none else unescapeGo .hostMode host
    | none => unescapeGo .hostMode host

/-- Go `validUserinfo`: the userinfo character class of RFC 3986. -/
def validUserinfoChar (c : Char) : Bool :=
  isAlphaC c || isDigitC c ||
  (c = '-' || c = '.' || c = '_' || c = ':' || c = '~' || c = '!' : Bool) ||
  (c = '$' || c = '&' || c = Char.ofNat 39 || c = '(' || c = ')' : Bool) ||
  (c = '*' || c = '+' || c = ',' || c = ';' || c = '=' || c = '%' || c = '@' : Bool)

/-- Go `parseAuthority`: splits userinfo at the last `@`, validates it, and
parses the host part.  The decoded userinfo itself is not consulted by the
embedded program, so only the host (and the error behaviour) is returned. -/
def parseAuthority (authority : Str) : Option Str :=
  match lastIdxOf '@' authority with
  | none => parseHost authority
  | some i =>
    match parseHost (authority.drop (i + 1)) with
    | none => none
    | some host =>
      let userinfo := authority.take i
      if !userinfo.all validUserinfoChar then none
      else if userinfo.contains ':' then
        let r := cutAtFirst ':' userinfo
        match unescapeGo .userMode r.before, unescapeGo .userMode r.after with
        | some _, some _ => some host
        | _, _ => none
      else
        match unescapeGo .userMode userinfo with
        | some _ => some host
        | none => none

/-- The fields of Go `url.URL` that the embedded program reads or that the
parser's control flow sets.  `opq` is Go's `URL.Opaque`. -/
structure GoURL where
  scheme : Str
  opq : Str
  host : Str
  path : Str
  rawQuery : Str
  forceQuery : Bool
  fragment : Str
deriving DecidableEq

/-- Result of the query split in Go `parse` (the `ForceQuery` special case
plus `strings.Cut(rest, "?")`). -/
structure CutQ where
  rest : Str
  rawQuery : Str
  force : Bool
deriving DecidableEq

/-- The query split of Go `parse`. -/
def cutQuery (rest : Str) : CutQ :=
  if rest.getLast? == some '?' && rest.count '?' == 1 then ⟨rest.dropLast, [], true⟩
  else
    let r := cutAtFirst '?' rest
    ⟨r.before, r.after, false⟩

/-- The body of Go `parse` after the scheme and query have been split off:
opaque part, optional authority, and path.  Query and fragment fields are
left empty here and filled in by the callers. -/
def goParseCore (scheme rest : Str) : Option GoURL :=
  if !startsWith rest (str "/") && !scheme.isEmpty then
    some ⟨scheme, rest, [], [], [], false, []⟩
  else if !startsWith rest (str "/") && (cutAtFirst '/' rest).before.contains ':' then
    none
  else if (!scheme.isEmpty || !startsWith rest (str "///")) && startsWith rest (str "//") then
    (parseAuthority (cutAtFirst '/' (rest.drop 2)).before).bind (fun host =>
      (unescapeGo .pathMode
        (if (cutAtFirst '/' (rest.drop 2)).found then '/' :: (cutAtFirst '/' (rest.drop 2)).after
         else [])).map (fun p => ⟨scheme, [], host, p, [], false, []⟩))
  else
    (unescapeGo .pathMode rest).map (fun p => ⟨scheme, [], [], p, [], false, []⟩)

/-- Go `parse` after `getScheme`: splits the query, then delegates. -/
def goParseRest (scheme rest0 : Str) : Option GoURL :=
  (goParseCore scheme (cutQuery rest0).rest).map
    (fun u => ⟨u.scheme, u.opq, u.host, u.path, (cutQuery rest0).rawQuery, (cutQuery rest0).force, []⟩)

/-- Go `parse(rawURL, false)` on the fragment-stripped input. -/
def goParseNoFrag (s : Str) : Option GoURL :=
  if containsCTL s then none
  else
    match getScheme s with
    | .schemeErr => none
    | .noScheme => goParseRest [] s
    | .found sch rest => goParseRest (asciiLower sch) rest

/-- Go `net/url.Parse`: cut the fragment at the first `#`, parse the rest,
then unescape a nonempty fragment. -/
def goParse (s : Str) : Option GoURL :=
  match goParseNoFrag (cutAtFirst '#' s).before with
  | none => none
  | some u =>
    if (cutAtFirst '#' s).after.isEmpty then some u
    else
      match unescapeGo .fragMode (cutAtFirst '#' s).after with
      | none => none
      | some f => some ⟨u.scheme, u.opq, u.host, u.path, u.rawQuery, u.forceQuery, f⟩

/-! ## The embedded program: data model and operations -/

/-- One entry of the remote webhook-endpoint listing
(`requests.WebhookEndpointList`); the fields are the ones the embedded code
reads (`URL`, `Application`, `EnabledEvents`). -/
structure WebhookEndpoint where
  url : Str
  application : Str
  enabledEvents : List Str
deriving DecidableEq

/-- `proxy.EndpointRoute`. -/
structure EndpointRoute where
  url : Str
  forwardHeaders : List Str
  connect : Bool
  eventTypes : List Str
deriving DecidableEq

/-- The source's `buildForwardURL`: parse the forward URL (a parse failure is
`log.Fatalf`, modelled as `none`) and emit
`scheme "://" host (path minus one trailing "/") destinationPath`. -/
def buildForwardURL (forwardURL : Str) (destination : GoURL) : Option Str :=
  match goParse forwardURL with
  | none => none
  | some f =>
    some (f.scheme ++ str "://" ++ f.host ++ trimSuffix f.path (str "/") ++ destination.path)

/-- The source's `buildEndpointRoutes`: walk the endpoint listing in order;
an endpoint whose URL fails `url.Parse` is silently skipped; the others
become one route each, classified by `Application == ""`.  A `log.Fatalf`
inside `buildForwardURL` aborts the whole process (`none`). -/
def buildEndpointRoutes (endpoints : List WebhookEndpoint)
    (forwardURL forwardConnectURL : Str)
    (forwardHeaders forwardConnectHeaders : List Str) : Option (List EndpointRoute) :=
  match endpoints with
  | [] => some []
  | e :: rest =>
    match goParse e.url with
    | none => buildEndpointRoutes rest forwardURL forwardConnectURL forwardHeaders forwardConnectHeaders
    | some u =>
      if e.application.isEmpty then
        match buildForwardURL forwardURL u with
        | none => none
        | some s =>
          (buildEndpointRoutes rest forwardURL forwardConnectURL forwardHeaders forwardConnectHeaders).map
            (fun rs => ⟨s, forwardHeaders, false, e.enabledEvents⟩ :: rs)
      else
        match buildForwardURL forwardConnectURL u with
        | none => none
        | some s =>
          (buildEndpointRoutes rest forwardURL forwardConnectURL forwardHeaders forwardConnectHeaders).map
            (fun rs => ⟨s, forwardConnectHeaders, true, e.enabledEvents⟩ :: rs)

/-- Route resolution exactly as invoked by `runListenCmd` (line 140 of the
source): both raw forwarding targets are first normalized by `parseURL`. -/
def resolveRoutes (endpoints : List WebhookEndpoint) (directRaw connectRaw : Str)
    (directHeaders connectHeaders : List Str) : Option (List EndpointRoute) :=
  buildEndpointRoutes endpoints (parseURL directRaw) (parseURL connectRaw)
    directHeaders connectHeaders

/-- The known event-type vocabulary (`validEvents` in the generated
`events_list.go`; the map keys, in source order). -/
def validEvents : List String :=
  ["*",
   "account.application.authorized",
   "account.application.deauthorized",
   "account.external_account.created",
   "account.external_account.deleted",
   "account.external_account.updated",
   "account.updated",
   "application_fee.created",
   "application_fee.refund.updated",
   "application_fee.refunded",
   "balance.available",
   "billing_portal.configuration.created",
   "billing_portal.configuration.updated",
   "billing_portal.session.created",
   "capability.updated",
   "cash_balance.funds_available",
   "charge.captured",
   "charge.dispute.closed",
   "charge.dispute.created",
   "charge.dispute.funds_reinstated",
   "charge.dispute.funds_withdrawn",
   "charge.dispute.updated",
   "charge.expired",
   "charge.failed",
   "charge.pending",
   "charge.refund.updated",
   "charge.refunded",
   "charge.succeeded",
   "charge.updated",
   "checkout.session.async_payment_failed",
   "checkout.session.async_payment_succeeded",
   "checkout.session.completed",
   "checkout.session.expired",
   "coupon.created",
   "coupon.deleted",
   "coupon.updated",
   "credit_note.created",
   "credit_note.updated",
   "credit_note.voided",
   "customer.created",
   "customer.deleted",
   "customer.discount.created",
   "customer.discount.deleted",
   "customer.discount.updated",
   "customer.source.created",
   "customer.source.deleted",
   "customer.source.expiring",
   "customer.source.updated",
   "customer.subscription.created",
   "customer.subscription.deleted",
   "customer.subscription.pending_update_applied",
   "customer.subscription.pending_update_expired",
   "customer.subscription.trial_will_end",
   "customer.subscription.updated",
   "customer.tax_id.created",
   "customer.tax_id.deleted",
   "customer.tax_id.updated",
   "customer.updated",
   "file.created",
   "identity.verification_session.canceled",
   "identity.verification_session.created",
   "identity.verification_session.processing",
   "identity.verification_session.redacted",
   "identity.verification_session.requires_input",
   "identity.verification_session.verified",
   "invoice.created",
   "invoice.deleted",
   "invoice.finalization_failed",
   "invoice.finalized",
   "invoice.marked_uncollectible",
   "invoice.paid",
   "invoice.payment_action_required",
   "invoice.payment_failed",
   "invoice.payment_succeeded",
   "invoice.sent",
   "invoice.upcoming",
   "invoice.updated",
   "invoice.voided",
   "invoiceitem.created",
   "invoiceitem.deleted",
   "invoiceitem.updated",
   "issuing_authorization.created",
   "issuing_authorization.request",
   "issuing_authorization.updated",
   "issuing_card.created",
   "issuing_card.updated",
   "issuing_cardholder.created",
   "issuing_cardholder.updated",
   "issuing_dispute.closed",
   "issuing_dispute.created",
   "issuing_dispute.funds_reinstated",
   "issuing_dispute.submitted",
   "issuing_dispute.updated",
   "issuing_transaction.created",
   "issuing_transaction.updated",
   "mandate.updated",
   "order.created",
   "order.payment_failed",
   "order.payment_succeeded",
   "order.updated",
   "order_return.created",
   "payment_intent.amount_capturable_updated",
   "payment_intent.canceled",
   "payment_intent.created",
   "payment_intent.partially_funded",
   "payment_intent.payment_failed",
   "payment_intent.processing",
   "payment_intent.requires_action",
   "payment_intent.succeeded",
   "payment_link.created",
   "payment_link.updated",
   "payment_method.attached",
   "payment_method.automatically_updated",
   "payment_method.detached",
   "payment_method.updated",
   "payout.canceled",
   "payout.created",
   "payout.failed",
   "payout.paid",
   "payout.updated",
   "person.created",
   "person.deleted",
   "person.updated",
   "plan.created",
   "plan.deleted",
   "plan.updated",
   "price.created",
   "price.deleted",
   "price.updated",
   "product.created",
   "product.deleted",
   "product.updated",
   "promotion_code.created",
   "promotion_code.updated",
   "quote.accepted",
   "quote.canceled",
   "quote.created",
   "quote.finalized",
   "radar.early_fraud_warning.created",
   "radar.early_fraud_warning.updated",
   "recipient.created",
   "recipient.deleted",
   "recipient.updated",
   "reporting.report_run.failed",
   "reporting.report_run.succeeded",
   "reporting.report_type.updated",
   "review.closed",
   "review.opened",
   "setup_intent.canceled",
   "setup_intent.created",
   "setup_intent.requires_action",
   "setup_intent.setup_failed",
   "setup_intent.succeeded",
   "sigma.scheduled_query_run.created",
   "sku.created",
   "sku.deleted",
   "sku.updated",
   "source.canceled",
   "source.chargeable",
   "source.failed",
   "source.mandate_notification",
   "source.refund_attributes_required",
   "source.transaction.created",
   "source.transaction.updated",
   "subscription_schedule.aborted",
   "subscription_schedule.canceled",
   "subscription_schedule.completed",
   "subscription_schedule.created",
   "subscription_schedule.expiring",
   "subscription_schedule.released",
   "subscription_schedule.updated",
   "tax_rate.created",
   "tax_rate.updated",
   "terminal.reader.action_failed",
   "terminal.reader.action_succeeded",
   "test_helpers.test_clock.advancing",
   "test_helpers.test_clock.created",
   "test_helpers.test_clock.deleted",
   "test_helpers.test_clock.internal_failure",
   "test_helpers.test_clock.ready",
   "topup.canceled",
   "topup.created",
   "topup.failed",
   "topup.reversed",
   "topup.succeeded",
   "transfer.created",
   "transfer.failed",
   "transfer.paid",
   "transfer.reversed",
   "transfer.updated"]

/-- The vocabulary as byte lists. -/
def validEventsStr : List Str := validEvents.map str

/-- The warning loop of `runListenCmd`: the tokens that are warned about, in
request order (one `Printf` per requested event missing from the map). -/
def eventWarnings : List Str -> List Str
  | [] => []
  | e :: rest =>
    if validEventsStr.contains e then eventWarnings rest else e :: eventWarnings rest

/-- The distinct fatal configuration errors returned by the validation prefix
of `runListenCmd`. -/
inductive ListenError where
  | relativeForwardURL : ListenError
  | relativeForwardConnectURL : ListenError
  | noEndpoints : ListenError
  | missingForwardURL : ListenError
deriving DecidableEq

/-- What `runListenCmd` does after the warning loop: return a configuration
error (the relay is not started), die in `log.Fatalf` (`fatalURL`), or start
the relay with the computed endpoint routes. -/
inductive ListenOutcome where
  | configError (e : ListenError) : ListenOutcome
  | fatalURL : ListenOutcome
  | proceed (routes : List EndpointRoute) : ListenOutcome
deriving DecidableEq

/-- True on the `configError` outcome. -/
def ListenOutcome.isConfigError : ListenOutcome -> Bool
  | .configError _ => true
  | _ => false

/-- The flag values consumed by the embedded part of `runListenCmd`. -/
structure ListenFlags where
  useConfiguredWebhooks : Bool
  forwardURL : Str
  forwardConnectURL : Str
  forwardHeaders : List Str
  forwardConnectHeaders : List Str
  events : List Str
deriving DecidableEq

/-- The decision logic of `runListenCmd` (source lines 119-161), given the
endpoint listing the API would return: first the non-blocking event-type
warnings, then the endpoint-API-mode validation, then the relay start.  In
the branch that does not use configured webhooks the relay is started with an
empty route list. -/
def runListenCmd (flags : ListenFlags) (endpoints : List WebhookEndpoint) :
    List Str × ListenOutcome :=
  (eventWarnings flags.events,
    if flags.useConfiguredWebhooks && !flags.forwardURL.isEmpty then
      if startsWith flags.forwardURL (str "/") then .configError .relativeForwardURL
      else if startsWith flags.forwardConnectURL (str "/") then .configError .relativeForwardConnectURL
      else if endpoints.isEmpty then .configError .noEndpoints
      else
        match resolveRoutes endpoints flags.forwardURL flags.forwardConnectURL
            flags.forwardHeaders flags.forwardConnectHeaders with
        | none => .fatalURL
        | some rs => .proceed rs
    else if flags.useConfiguredWebhooks && flags.forwardURL.isEmpty then
      .configError .missingForwardURL
    else .proceed [])

/-- The result shape asserted by the normalizer claim: an `http://` or
`https://` scheme followed by a nonempty host component. -/
def schemeAndHost (s : Str) : Bool :=
  (startsWith s (str "http://") && !((s.drop 7).takeWhile (fun c => c != '/')).isEmpty) ||
  (startsWith s (str "https://") && !((s.drop 8).takeWhile (fun c => c != '/')).isEmpty)

/-! ## Lemmas about the string utilities and the normalizer -/

theorem startsWith_append_self (p s : Str) : startsWith (p ++ s) p = true := by
  induction p with
  | nil => cases s <;> rfl
  | cons c cs ih => simp [startsWith, ih]

theorem startsWith_ex {s p : Str} (h : startsWith s p = true) : ∃ t, s = p ++ t := by
  induction p generalizing s with
  | nil => exact ⟨s, rfl⟩
  | cons c cs ih =>
    cases s with
    | nil => simp [startsWith] at h
    | cons x xs =>
      simp only [startsWith, Bool.and_eq_true, beq_iff_eq] at h
      obtain ⟨t, ht⟩ := ih h.2
      exact ⟨t, by simp [h.1, ht]⟩

theorem atoiOk_http (t : Str) : atoiOk (str "http://" ++ t) = false := rfl

theorem atoiOk_https (t : Str) : atoiOk (str "https://" ++ t) = false := rfl

theorem atoiOk_localhost (t : Str) : atoiOk (str "localhost:" ++ t) = false := rfl

theorem slash_http (t : Str) : startsWith (str "http://" ++ t) (str "/") = false := rfl

theorem slash_https (t : Str) : startsWith (str "https://" ++ t) (str "/") = false := rfl

theorem slash_localhost (t : Str) : startsWith (str "localhost:" ++ t) (str "/") = false := rfl

theorem http_of_https (t : Str) : startsWith (str "https://" ++ t) (str "http://") = false := rfl

theorem localhost_http (t : Str) : startsWith (str "localhost:" ++ t) (str "http://") = false := rfl

theorem localhost_https (t : Str) : startsWith (str "localhost:" ++ t) (str "https://") = false := rfl

theorem http_localhost_concat : str "http://" ++ str "localhost:" = str "http://localhost:" := rfl

/-- Every output of the normalizer carries an explicit `http` or `https`
scheme. -/
theorem parseURL_scheme (s : Str) :
    startsWith (parseURL s) (str "http://") = true ∨
    startsWith (parseURL s) (str "https://") = true := by
  unfold parseURL
  set u2 := if startsWith (if atoiOk s then str "localhost:" ++ s else s) (str "/") then
      str "localhost" ++ (if atoiOk s then str "localhost:" ++ s else s)
    else (if atoiOk s then str "localhost:" ++ s else s) with hu2
  cases ha : startsWith u2 (str "http://") <;> cases hb : startsWith u2 (str "https://") <;>
    simp [ha, hb, startsWith_append_self]

/-- The normalizer leaves scheme-qualified inputs unchanged. -/
theorem parseURL_fixed {y : Str}
    (h : startsWith y (str "http://") = true ∨ startsWith y (str "https://") = true) :
    parseURL y = y := by
  rcases h with h | h
  · obtain ⟨t, rfl⟩ := startsWith_ex h
    simp [parseURL, atoiOk_http, slash_http, startsWith_append_self]
  · obtain ⟨t, rfl⟩ := startsWith_ex h
    simp [parseURL, atoiOk_https, slash_https, http_of_https, startsWith_append_self]

/-! ## Scheme tracking through the URL parser -/

theorem getScheme_http (b : Str) :
    getScheme (str "http://" ++ b) = .found (str "http") (str "//" ++ b) := rfl

theorem getScheme_https (b : Str) :
    getScheme (str "https://" ++ b) = .found (str "https") (str "//" ++ b) := rfl

theorem asciiLower_http : asciiLower (str "http") = str "http" := rfl

theorem asciiLower_https : asciiLower (str "https") = str "https" := rfl

theorem cutHash_http (t : Str) :
    cutAtFirst '#' (str "http://" ++ t) =
      ⟨str "http://" ++ (cutAtFirst '#' t).before, (cutAtFirst '#' t).after,
        (cutAtFirst '#' t).found⟩ := rfl

theorem cutHash_https (t : Str) :
    cutAtFirst '#' (str "https://" ++ t) =
      ⟨str "https://" ++ (cutAtFirst '#' t).before, (cutAtFirst '#' t).after,
        (cutAtFirst '#' t).found⟩ := rfl

theorem goParseCore_scheme {sch rest : Str} {u : GoURL}
    (h : goParseCore sch rest = some u) : u.scheme = sch := by
  rcases hpa : parseAuthority (cutAtFirst '/' (rest.drop 2)).before with _ | host <;>
  rcases hue : unescapeGo .pathMode
      (if (cutAtFirst '/' (rest.drop 2)).found then '/' :: (cutAtFirst '/' (rest.drop 2)).after
       else []) with _ | p <;>
  rcases hur : unescapeGo .pathMode rest with _ | q <;>
    simp only [goParseCore, hpa, hue, hur, Option.bind, Option.map] at h <;>
    split_ifs at h <;>
    first
      | rfl
      | (cases h <;> rfl)

theorem goParseRest_scheme {sch rest0 : Str} {u : GoURL}
    (h : goParseRest sch rest0 = some u) : u.scheme = sch := by
  unfold goParseRest at h
  rw [Option.map_eq_some'] at h
  obtain ⟨v, hv, hvu⟩ := h
  have := goParseCore_scheme hv
  subst hvu
  exact this

theorem goParseNoFrag_scheme_http {s : Str} {u : GoURL}
    (hs : startsWith s (str "http://") = true) (h : goParseNoFrag s = some u) :
    u.scheme = str "http" := by
  obtain ⟨t, rfl⟩ := startsWith_ex hs
  unfold goParseNoFrag at h
  split_ifs at h
  rw [getScheme_http] at h
  simp only [asciiLower_http] at h
  exact goParseRest_scheme h

theorem goParseNoFrag_scheme_https {s : Str} {u : GoURL}
    (hs : startsWith s (str "https://") = true) (h : goParseNoFrag s = some u) :
    u.scheme = str "https" := by
  obtain ⟨t, rfl⟩ := startsWith_ex hs
  unfold goParseNoFrag at h
  split_ifs at h
  rw [getScheme_https] at h
  simp only [asciiLower_https] at h
  exact goParseRest_scheme h

theorem goParse_frag_scheme {s : Str} {u : GoURL} (h : goParse s = some u) :
    ∃ w, goParseNoFrag (cutAtFirst '#' s).before = some w ∧
      u.scheme = w.scheme ∧ u.path = w.path := by
  unfold goParse at h
  split at h
  · cases h
  · rename_i w hw
    refine ⟨w, hw, ?_⟩
    split at h
    · injection h with h; subst h; exact ⟨rfl, rfl⟩
    · split at h
      · cases h
      · injection h with h; subst h; exact ⟨rfl, rfl⟩

theorem goParse_scheme_http {s : Str} {u : GoURL}
    (hs : startsWith s (str "http://") = true) (h : goParse s = some u) :
    u.scheme = str "http" := by
  obtain ⟨t, rfl⟩ := startsWith_ex hs
  obtain ⟨w, hw, hsch, -⟩ := goParse_frag_scheme h
  rw [cutHash_http] at hw
  rw [hsch]
  exact goParseNoFrag_scheme_http (startsWith_append_self _ _) hw

theorem goParse_scheme_https {s : Str} {u : GoURL}
    (hs : startsWith s (str "https://") = true) (h : goParse s = some u) :
    u.scheme = str "https" := by
  obtain ⟨t, rfl⟩ := startsWith_ex hs
  obtain ⟨w, hw, hsch, -⟩ := goParse_frag_scheme h
  rw [cutHash_https] at hw
  rw [hsch]
  exact goParseNoFrag_scheme_https (startsWith_append_self _ _) hw

theorem http_colonslash : str "http" ++ str "://" = str "http://" := rfl

theorem https_colonslash : str "https" ++ str "://" = str "https://" := rfl

/-- Composition with a scheme-qualified forward URL yields a scheme-qualified
delivery URL. -/
theorem buildForwardURL_scheme {fwd : Str} {u : GoURL} {s : Str}
    (hf : startsWith fwd (str "http://") = true ∨ startsWith fwd (str "https://") = true)
    (h : buildForwardURL fwd u = some s) :
    startsWith s (str "http://") = true ∨ startsWith s (str "https://") = true := by
  unfold buildForwardURL at h
  split at h
  · cases h
  · rename_i f hg
    injection h with h
    subst h
    rcases hf with hf | hf
    · left
      rw [goParse_scheme_http hf hg]
      calc startsWith (str "http" ++ str "://" ++ f.host ++ trimSuffix f.path (str "/") ++ u.path)
            (str "http://")
          = startsWith (str "http://" ++ (f.host ++ trimSuffix f.path (str "/") ++ u.path))
            (str "http://") := by rw [← http_colonslash]; simp [List.append_assoc]
        _ = true := startsWith_append_self _ _
    · right
      rw [goParse_scheme_https hf hg]
      calc startsWith (str "https" ++ str "://" ++ f.host ++ trimSuffix f.path (str "/") ++ u.path)
            (str "https://")
          = startsWith (str "https://" ++ (f.host ++ trimSuffix f.path (str "/") ++ u.path))
            (str "https://") := by rw [← https_colonslash]; simp [List.append_assoc]
        _ = true := startsWith_append_self _ _

/-! ## Route-builder lemmas -/

theorem buildEndpointRoutes_skip {e : WebhookEndpoint} (eps : List WebhookEndpoint)
    {fU fCU : Str} {dH cH : List Str} (h : goParse e.url = none) :
    buildEndpointRoutes (e :: eps) fU fCU dH cH = buildEndpointRoutes eps fU fCU dH cH := by
  simp only [buildEndpointRoutes, h]

theorem buildEndpointRoutes_mem {eps : List WebhookEndpoint} {fU fCU : Str}
    {dH cH : List Str} {routes : List EndpointRoute}
    (h : buildEndpointRoutes eps fU fCU dH cH = some routes) {r : EndpointRoute}
    (hr : r ∈ routes) :
    (∃ u, buildForwardURL fU u = some r.url) ∨ (∃ u, buildForwardURL fCU u = some r.url) := by
  induction eps generalizing routes with
  | nil =>
    unfold buildEndpointRoutes at h
    injection h with h
    subst h
    cases hr
  | cons e rest ih =>
    unfold buildEndpointRoutes at h
    split at h
    · exact ih h hr
    · rename_i u hu
      split_ifs at h
      · split at h
        · cases h
        · rename_i s hs
          rw [Option.map_eq_some'] at h
          obtain ⟨rs, hrs, h⟩ := h
          subst h
          cases hr with
          | head => exact Or.inl ⟨u, hs⟩
          | tail _ hr => exact ih hrs hr
      · split at h
        · cases h
        · rename_i s hs
          rw [Option.map_eq_some'] at h
          obtain ⟨rs, hrs, h⟩ := h
          subst h
          cases hr with
          | head => exact Or.inr ⟨u, hs⟩
          | tail _ hr => exact ih hrs hr

/-! ## Claim theorems -/

/-- C1 counterexample: on the claim's exact endpoint list, `Resolve` returns
three routes, not two — Go's `url.Parse` accepts `"not a url"` (as a
path-only URL), so that entry is not skipped and yields the route
`http://localhost:3000not a url`; in particular the result is not the
claimed two-route list. -/
theorem resolve_example_counterexample :
    resolveRoutes
      [⟨str "https://example.com/a", [], []⟩,
       ⟨str "not a url", [], []⟩,
       ⟨str "https://example.com/b", str "ca_123", []⟩]
      (str "3000") (str "4000") [] [] =
      some [⟨str "http://localhost:3000/a", [], false, []⟩,
            ⟨str "http://localhost:3000not a url", [], false, []⟩,
            ⟨str "http://localhost:4000/b", [], true, []⟩] ∧
    ¬(resolveRoutes
      [⟨str "https://example.com/a", [], []⟩,
       ⟨str "not a url", [], []⟩,
       ⟨str "https://example.com/b", str "ca_123", []⟩]
      (str "3000") (str "4000") [] [] =
      some [⟨str "http://localhost:3000/a", [], false, []⟩,
            ⟨str "http://localhost:4000/b", [], true, []⟩]) := by decide

/-- C1 amended: with a middle entry whose URL genuinely fails Go's
`url.Parse` (here an invalid port), `Resolve` returns exactly the two routes
`http://localhost:3000/a` (direct) then `http://localhost:4000/b` (connect),
in input order, and the unparseable entry is skipped with no error. -/
theorem resolve_example_amended :
    resolveRoutes
      [⟨str "https://example.com/a", [], []⟩,
       ⟨str "http://localhost:badport/x", [], []⟩,
       ⟨str "https://example.com/b", str "ca_123", []⟩]
      (str "3000") (str "4000") [] [] =
      some [⟨str "http://localhost:3000/a", [], false, []⟩,
            ⟨str "http://localhost:4000/b", [], true, []⟩] := by decide

/-- C2 (code bug): with a connect-scoped endpoint and an empty
`--forward-connect-to`, `runListenCmd` does not fall back to the direct
target; it normalizes the empty string to `http://` and produces the route
`http:///b` instead of `http://localhost:3000/b`. -/
theorem connect_fallback_code_eval :
    (runListenCmd ⟨true, str "3000", [], [], [], []⟩
        [⟨str "https://example.com/b", str "ca_123", []⟩]).2 =
      .proceed [⟨str "http:///b", [], true, []⟩] ∧
    str "http:///b" ≠ str "http://localhost:3000/b" := by decide

/-- C3 counterexample: the resolver can emit a malformed delivery URL.  The
endpoint URL `not a url` parses (as a bare path), so with direct target
`3000` the resolver emits the route `http://localhost:3000not a url` — and
that string is itself rejected by Go's `url.Parse` (invalid port
`:3000not a url`), i.e. it is malformed under the spec's own parseability
criterion.  So "never malformed" fails for the program. -/
theorem resolve_malformed_delivery_counterexample :
    resolveRoutes [⟨str "not a url", [], []⟩] (str "3000") (str "4000") [] [] =
      some [⟨str "http://localhost:3000not a url", [], false, []⟩] ∧
    goParse (str "http://localhost:3000not a url") = none := by decide

/-- C3 amended: every route emitted by `Resolve` (for any endpoint list and
any pair of raw forwarding targets) has a delivery URL beginning with
`http://` or `https://` — absolute and scheme-qualified, never relative —
though not necessarily re-parseable; and an endpoint whose URL fails to
parse is dropped without affecting the resolution of the remaining
endpoints. -/
theorem resolve_delivery_urls_scheme_qualified (endpoints : List WebhookEndpoint)
    (directRaw connectRaw : Str) (dH cH : List Str) :
    (∀ routes, resolveRoutes endpoints directRaw connectRaw dH cH = some routes →
      ∀ r, r ∈ routes →
        startsWith r.url (str "http://") = true ∨
        startsWith r.url (str "https://") = true) ∧
    (∀ e, goParse e.url = none →
      resolveRoutes (e :: endpoints) directRaw connectRaw dH cH =
        resolveRoutes endpoints directRaw connectRaw dH cH) := by
  constructor
  · intro routes h r hr
    unfold resolveRoutes at h
    rcases buildEndpointRoutes_mem h hr with ⟨u, hu⟩ | ⟨u, hu⟩
    · exact buildForwardURL_scheme (parseURL_scheme directRaw) hu
    · exact buildForwardURL_scheme (parseURL_scheme connectRaw) hu
  · intro e he
    unfold resolveRoutes
    exact buildEndpointRoutes_skip endpoints he

/-- C3 witness: the theorem applied to a one-endpoint list (yielding the
scheme-qualified route `http://localhost:3000/a`) and to an unparseable
endpoint (which is dropped, leaving resolution of the empty list). -/
theorem resolve_delivery_urls_scheme_qualified_witness :
    (startsWith (str "http://localhost:3000/a") (str "http://") = true ∨
      startsWith (str "http://localhost:3000/a") (str "https://") = true) ∧
    resolveRoutes [⟨str "http://localhost:badport/x", [], []⟩]
        (str "3000") (str "4000") [] [] =
      resolveRoutes [] (str "3000") (str "4000") [] [] := by
  constructor
  · exact (resolve_delivery_urls_scheme_qualified
      [⟨str "https://example.com/a", [], []⟩] (str "3000") (str "4000") [] []).1
      [⟨str "http://localhost:3000/a", [], false, []⟩] (by decide)
      ⟨str "http://localhost:3000/a", [], false, []⟩ (by decide)
  · exact (resolve_delivery_urls_scheme_qualified [] (str "3000") (str "4000") [] []).2
      ⟨str "http://localhost:badport/x", [], []⟩ (by decide)

/-- C4 counterexample: on the empty string the normalizer returns `http://`,
which has a scheme but no host, so the result is not always scheme + host. -/
theorem normalize_empty_no_host :
    parseURL (str "") = str "http://" ∧ schemeAndHost (parseURL (str "")) = false := by decide

/-- C4 amended: the normalizer is a total function and its result always
begins with `http://` or `https://` (the host may be empty, as for the empty
input). -/
theorem normalize_always_scheme_qualified (s : Str) :
    startsWith (parseURL s) (str "http://") = true ∨
    startsWith (parseURL s) (str "https://") = true :=
  parseURL_scheme s

/-- C6: every string accepted by `strconv.Atoi` (optional sign, decimal
digits, 64-bit range) is normalized to `http://localhost:` followed by the
string itself. -/
theorem normalize_integer_port (n : Str) (h : atoiOk n = true) :
    parseURL n = str "http://localhost:" ++ n := by
  simp [parseURL, h, slash_localhost, localhost_http, localhost_https]
  rw [← List.append_assoc, http_localhost_concat]

/-- C6 witness: the integer string 3000. -/
theorem normalize_integer_port_witness :
    atoiOk (str "3000") = true ∧ parseURL (str "3000") = str "http://localhost:" ++ str "3000" :=
  ⟨by decide, normalize_integer_port (str "3000") (by decide)⟩

/-- C7: composing `/v1/hook` onto the base with and without a trailing slash
gives the identical `http://localhost:3000/v1/hook`, with no doubled
separator. -/
theorem compose_no_doubled_separator :
    (goParse (str "/v1/hook")).bind (buildForwardURL (str "http://localhost:3000/")) =
      some (str "http://localhost:3000/v1/hook") ∧
    (goParse (str "/v1/hook")).bind (buildForwardURL (str "http://localhost:3000")) =
      some (str "http://localhost:3000/v1/hook") := by decide

/-- C8: the normalizer is idempotent. -/
theorem normalize_idempotent (x : Str) : parseURL (parseURL x) = parseURL x :=
  parseURL_fixed (parseURL_scheme x)

/-- C5: in endpoint-API mode (`--use-configured-webhooks`), a relative
forward URL, an empty endpoint listing, or a missing forward URL each
produce a fatal configuration error before the relay is started. -/
theorem endpoint_mode_validation_errors (flags : ListenFlags)
    (endpoints : List WebhookEndpoint)
    (hmode : flags.useConfiguredWebhooks = true)
    (h : startsWith flags.forwardURL (str "/") = true ∨ endpoints = [] ∨
      flags.forwardURL = []) :
    ((runListenCmd flags endpoints).2).isConfigError = true := by
  rcases h with h | h | h
  · have hne : flags.forwardURL.isEmpty = false := by
      cases hf : flags.forwardURL with
      | nil => rw [hf] at h; cases h
      | cons a l => rfl
    simp [runListenCmd, hmode, hne, h, ListenOutcome.isConfigError]
  · subst h
    by_cases hf : flags.forwardURL.isEmpty
    · simp [runListenCmd, hmode, hf, ListenOutcome.isConfigError]
    · simp only [runListenCmd, hmode, hf, Bool.not_false, Bool.and_self, if_true,
        Bool.true_and, Bool.and_true]
      split_ifs <;> simp_all [ListenOutcome.isConfigError]
  · have hf : flags.forwardURL.isEmpty = true := by rw [h]; rfl
    simp [runListenCmd, hmode, hf, ListenOutcome.isConfigError]

/-- C5 witness: endpoint-API mode with no forwarding destination. -/
theorem endpoint_mode_validation_errors_witness :
    ((runListenCmd ⟨true, [], [], [], [], []⟩ []).2).isConfigError = true :=
  endpoint_mode_validation_errors ⟨true, [], [], [], [], []⟩ [] rfl (Or.inr (Or.inr rfl))

/-- C9: the warning pass yields exactly the requested tokens missing from the
known vocabulary (which contains the wildcard), the two example filters give
the expected warning lists, and the startup outcome never depends on the
requested event filter. -/
theorem validate_events_advisory :
    (∀ events, eventWarnings events = events.filter (fun e => !validEventsStr.contains e)) ∧
    validEventsStr.contains (str "*") = true ∧
    eventWarnings [str "*", str "charge.succeeded", str "not.a.real.event"] =
      [str "not.a.real.event"] ∧
    eventWarnings [str "*"] = [] ∧
    (∀ flags endpoints events2,
      (runListenCmd flags endpoints).2 =
        (runListenCmd ⟨flags.useConfiguredWebhooks, flags.forwardURL, flags.forwardConnectURL,
          flags.forwardHeaders, flags.forwardConnectHeaders, events2⟩ endpoints).2) := by
  refine ⟨?_, by decide, by decide, by decide, ?_⟩
  · intro events
    induction events with
    | nil => rfl
    | cons e rest ih =>
      by_cases hc : e ∈ validEventsStr <;> simp [eventWarnings, hc, ih]
  · intro flags endpoints events2
    rfl

/-! ## Query and fragment splitting lemmas -/

theorem mem_of_getLastQ {s : Str} {c : Char} (h : s.getLast? = some c) : c ∈ s := by
  induction s with
  | nil => cases h
  | cons x xs ih =>
    cases xs with
    | nil => simp_all
    | cons y ys =>
      rw [List.getLast?_cons_cons] at h
      exact List.mem_cons_of_mem _ (ih h)

theorem cutAtFirst_not_mem {c : Char} {s : Str} (h : c ∉ s) :
    cutAtFirst c s = ⟨s, [], false⟩ := by
  induction s with
  | nil => rfl
  | cons x xs ih =>
    have hx : ¬x = c := fun he => h (by rw [← he]; exact List.mem_cons_self x xs)
    simp [cutAtFirst, hx, ih (fun hm => h (List.mem_cons_of_mem _ hm))]

theorem cutAtFirst_append {c : Char} {p : Str} (t : Str) (h : c ∉ p) :
    cutAtFirst c (p ++ c :: t) = ⟨p, t, true⟩ := by
  induction p with
  | nil => simp [cutAtFirst]
  | cons x xs ih =>
    have hx : ¬x = c := fun he => h (by rw [← he]; exact List.mem_cons_self x xs)
    simp [cutAtFirst, hx, ih (fun hm => h (List.mem_cons_of_mem _ hm))]

theorem getSchemeCore_mem {s : Str} :
    ∀ {acc a r : Str}, getSchemeCore acc s = .found a r → ∀ {c : Char}, c ∈ r → c ∈ s := by
  induction s with
  | nil => intro acc a r h; simp [getSchemeCore] at h
  | cons x xs ih =>
    intro acc a r h c hc
    simp only [getSchemeCore] at h
    split_ifs at h
    all_goals
      first
        | exact List.mem_cons_of_mem _ (ih h hc)
        | (cases h <;> exact List.mem_cons_of_mem _ hc)

theorem getScheme_append (s q : Str) :
    getScheme (s ++ '?' :: q) =
      match getScheme s with
      | .schemeErr => .schemeErr
      | .noScheme => .noScheme
      | .found a r => .found a (r ++ '?' :: q) := by
  unfold getScheme
  generalize ([] : Str) = acc
  induction s generalizing acc with
  | nil => rfl
  | cons x xs ih =>
    simp only [List.cons_append, getSchemeCore]
    by_cases hx : x = ':'
    · subst hx
      by_cases ha : List.isEmpty acc <;> simp [ha]
    · by_cases hal : isAlphaC x = true
      · simp [hx, hal, ih]
      · by_cases hd : (isDigitC x || x = '+' || x = '-' || x = '.') = true
        · by_cases ha : List.isEmpty acc <;> simp [hx, hal, hd, ha, ih]
        · simp [hx, hal, hd]

theorem cutQuery_rest_not_mem {r : Str} (h : '?' ∉ r) : (cutQuery r).rest = r := by
  unfold cutQuery
  have h1 : (r.getLast? == some '?') = false := by
    cases hg : r.getLast? with
    | none => rfl
    | some c =>
      have hc : c ∈ r := mem_of_getLastQ hg
      have hcq : ¬c = '?' := fun he => h (he ▸ hc)
      simp [hcq]
  simp [h1, cutAtFirst_not_mem h]

theorem cutQuery_rest_append {r : Str} (q : Str) (h : '?' ∉ r) :
    (cutQuery (r ++ '?' :: q)).rest = r := by
  unfold cutQuery
  by_cases hb : (((r ++ '?' :: q).getLast? == some '?') &&
      ((r ++ '?' :: q).count '?' == 1)) = true
  · rw [if_pos hb]
    simp only [Bool.and_eq_true, beq_iff_eq] at hb
    obtain ⟨hlast, hcount⟩ := hb
    have hr0 : r.count '?' = 0 := List.count_eq_zero.mpr h
    rw [List.count_append, hr0, List.count_cons_self] at hcount
    cases q with
    | nil => simp
    | cons y ys =>
      exfalso
      rw [List.getLast?_append_cons, List.getLast?_cons_cons] at hlast
      have hmem : '?' ∈ y :: ys := mem_of_getLastQ hlast
      have : (y :: ys).count '?' = 0 := by omega
      exact List.count_eq_zero.mp this hmem
  · rw [if_neg hb]
    simp [cutAtFirst_append q h]

theorem goParseRest_query {sch rest1 : Str} (q : Str) (h : '?' ∉ rest1)
    {u u' : GoURL} (h1 : goParseRest sch rest1 = some u)
    (h2 : goParseRest sch (rest1 ++ '?' :: q) = some u') :
    u'.path = u.path := by
  unfold goParseRest at h1 h2
  rw [cutQuery_rest_append q h] at h2
  rw [cutQuery_rest_not_mem h] at h1
  rw [Option.map_eq_some'] at h1 h2
  obtain ⟨v1, hv1, hu1⟩ := h1
  obtain ⟨v2, hv2, hu2⟩ := h2
  rw [hv1] at hv2
  injection hv2 with hv
  subst hv
  subst hu1
  subst hu2
  rfl

theorem goParseNoFrag_query {dest : Str} (q : Str) (hq : '?' ∉ dest)
    {u u' : GoURL} (h1 : goParseNoFrag dest = some u)
    (h2 : goParseNoFrag (dest ++ '?' :: q) = some u') :
    u'.path = u.path := by
  unfold goParseNoFrag at h1 h2
  by_cases hc : containsCTL dest = true
  · rw [if_pos hc] at h1; cases h1
  · rw [if_neg hc] at h1
    by_cases hc2 : containsCTL (dest ++ '?' :: q) = true
    · rw [if_pos hc2] at h2; cases h2
    · rw [if_neg hc2] at h2
      rw [getScheme_append] at h2
      cases hg : getScheme dest with
      | schemeErr => rw [hg] at h1; cases h1
      | noScheme =>
        rw [hg] at h1 h2
        exact goParseRest_query q hq h1 h2
      | found a r =>
        rw [hg] at h1 h2
        have hr : '?' ∉ r := fun hm => hq (getSchemeCore_mem hg hm)
        exact goParseRest_query q hr h1 h2

theorem goParse_eq_noFrag {s : Str} (h : '#' ∉ s) : goParse s = goParseNoFrag s := by
  unfold goParse
  rw [cutAtFirst_not_mem h]
  cases hg : goParseNoFrag s <;> simp

theorem goParse_append_frag {s : Str} (fr : Str) (h : '#' ∉ s) {u' : GoURL}
    (h2 : goParse (s ++ '#' :: fr) = some u') :
    ∃ w, goParseNoFrag s = some w ∧ u'.path = w.path := by
  unfold goParse at h2
  rw [cutAtFirst_append fr h] at h2
  cases hg : goParseNoFrag s with
  | none =>
    simp only [hg] at h2
    cases h2
  | some w =>
    refine ⟨w, rfl, ?_⟩
    simp only [hg] at h2
    split at h2
    · injection h2 with h2; subst h2; rfl
    · split at h2
      · cases h2
      · injection h2 with h2; subst h2; rfl

theorem buildForwardURL_path_eq {base : Str} {u v : GoURL} (h : u.path = v.path) :
    buildForwardURL base u = buildForwardURL base v := by
  unfold buildForwardURL
  cases goParse base <;> simp [h]

/-- C10: the composer consumes only the path of the destination URL: for a
destination with no query and no fragment, appending a query (`?q`), a
fragment (`#fr`), or both leaves the parsed path — and hence the composed
delivery URL — unchanged. -/
theorem compose_ignores_query_fragment (base dest q fr : Str)
    (hq : '?' ∉ dest) (hh : '#' ∉ dest) (hqf : '#' ∉ q) :
    (∀ u u₁, goParse dest = some u → goParse (dest ++ '?' :: q) = some u₁ →
      u₁.path = u.path ∧ buildForwardURL base u₁ = buildForwardURL base u) ∧
    (∀ u u₂, goParse dest = some u → goParse (dest ++ '#' :: fr) = some u₂ →
      u₂.path = u.path ∧ buildForwardURL base u₂ = buildForwardURL base u) ∧
    (∀ u u₃, goParse dest = some u → goParse (dest ++ '?' :: (q ++ '#' :: fr)) = some u₃ →
      u₃.path = u.path ∧ buildForwardURL base u₃ = buildForwardURL base u) := by
  have hnm : '#' ∉ dest ++ '?' :: q := by
    intro hm
    rcases List.mem_append.mp hm with hm | hm
    · exact hh hm
    · rcases List.mem_cons.mp hm with hm | hm
      · cases hm
      · exact hqf hm
  refine ⟨?_, ?_, ?_⟩
  · intro u u1 h1 h2
    rw [goParse_eq_noFrag hh] at h1
    rw [goParse_eq_noFrag hnm] at h2
    have hp := goParseNoFrag_query q hq h1 h2
    exact ⟨hp, buildForwardURL_path_eq hp⟩
  · intro u u2 h1 h2
    rw [goParse_eq_noFrag hh] at h1
    obtain ⟨w, hw, hpath⟩ := goParse_append_frag fr hh h2
    rw [h1] at hw
    injection hw with hw
    subst hw
    exact ⟨hpath, buildForwardURL_path_eq hpath⟩
  · intro u u3 h1 h2
    rw [goParse_eq_noFrag hh] at h1
    have hassoc : dest ++ '?' :: (q ++ '#' :: fr) = (dest ++ '?' :: q) ++ '#' :: fr := by
      simp
    rw [hassoc] at h2
    obtain ⟨w, hw, hpath⟩ := goParse_append_frag fr hnm h2
    have hp := goParseNoFrag_query q hq h1 hw
    rw [hp] at hpath
    exact ⟨hpath, buildForwardURL_path_eq hpath⟩

/-- C10 witness: destination `/v1/hook` with query `a=1` and fragment `x`
against the base `http://localhost:3000`; the parsed path and the composed
delivery URL are unchanged in all three variants. -/
theorem compose_ignores_query_fragment_witness :
    GoURL.path ⟨[], [], [], str "/v1/hook", str "a=1", false, []⟩ =
      GoURL.path ⟨[], [], [], str "/v1/hook", [], false, []⟩ ∧
    buildForwardURL (str "http://localhost:3000")
        ⟨[], [], [], str "/v1/hook", str "a=1", false, []⟩ =
      buildForwardURL (str "http://localhost:3000")
        ⟨[], [], [], str "/v1/hook", [], false, []⟩ :=
  (compose_ignores_query_fragment (str "http://localhost:3000") (str "/v1/hook")
    (str "a=1") (str "x") (by decide) (by decide) (by decide)).1
    ⟨[], [], [], str "/v1/hook", [], false, []⟩
    ⟨[], [], [], str "/v1/hook", str "a=1", false, []⟩
    (by decide) (by decide)
